import Mathlib

/-!
Shallow embedding of the gentoolkit process supervisor
(`gentoolkit/services/service.py`, `gentoolkit/services/pool.py`,
`gentoolkit/services/daemon.py`).

Operating-system effects (fork, kill, waitpid, sleeps, sockets) are modelled
as oracle values supplied through explicit environment records: every
`is_running` call consumes one `Probe` describing what the pair of syscalls
`os.kill(pid, 0)` / `os.waitpid(pid, WNOHANG)` observed, every `os.kill`
with a real signal yields a `KillResult`, and `os.fork` yields the child
pid chosen by the OS (or `none` when the fork is refused).  Python object
aliasing (the same `Instance` object being referenced from the `Service`
live list and the `Pool` flat list) is modelled by storing the mutable
`Instance` state in a heap keyed by the instance name, which is unique per
object because a `Service` allocates each sequence number exactly once.
-/

namespace Gentoolkit

/-- What the liveness syscalls observe for an instance whose recorded pid is
set: `noProc` means `os.kill(pid, 0)` raised `ESRCH`; `alive` means the kill
succeeded and `os.waitpid(pid, WNOHANG)` returned `(0, _)` (child still
running); `exitedCode c` means the child was reaped with `WIFEXITED` true and
exit status `c`; `signalled` means it was reaped with `WIFEXITED` false
(abnormal termination). -/
inductive Probe where
  | noProc
  | alive
  | exitedCode (c : Nat)
  | signalled
deriving DecidableEq

/-- Outcome of `os.kill(pid, sig)` with a real signal. -/
inductive KillResult where
  | ok
  | esrch
  | eperm
deriving DecidableEq

/-- The two states passed to `Service.__callback`
(`CALLBACK_STATE_STARTED = 1`, `CALLBACK_STATE_STOPPED = 2`). -/
inductive CallbackState where
  | started
  | stopped
deriving DecidableEq

/-- Supervisor-side state of `service.Instance`.  `pid = none` models both the
initial `0` and the explicit `None` assigned on stop (both falsy in the
source's `if self.pid:` tests).  `serviceName` models the owning service of
the `callback` closure passed by `Service.start`. -/
structure Instance where
  seq_number : Nat
  serviceName : String
  name : String
  report_addr : Option (String × Nat)
  pid : Option Nat
  reported_count : Nat
  exit_code : Option Nat
deriving DecidableEq

/-- `Instance.is_running`: probe liveness and do a non-blocking reap,
recording the exit status on reap (clean exit code, or `none` for abnormal
termination). -/
def Instance.isRunning (inst : Instance) (p : Probe) : Bool × Instance :=
  match inst.pid with
  | none => (false, inst)
  | some _ =>
    match p with
    | .noProc => (false, inst)
    | .alive => (true, inst)
    | .exitedCode c => (false, { inst with exit_code := some c })
    | .signalled => (false, { inst with exit_code := none })

/-- Environment of one `Instance.start` call: the pid returned by `os.fork`
(`none` = fork raised), and the probes consumed by the up-to-3 liveness
polls. -/
structure StartEnv where
  forkPid : Option Nat
  probes : Nat → Probe

/-- The `for i in range(3): if self.is_running(): ...` confirmation loop of
`Instance.start`. -/
def Instance.startAttempts (probes : Nat → Probe) : Nat → Nat → Instance → Bool × Instance
  | _, 0, inst => (false, inst)
  | i, r + 1, inst =>
    match inst.isRunning (probes i) with
    | (true, inst') => (true, inst')
    | (false, inst') => Instance.startAttempts probes (i + 1) r inst'

/-- Parent side of `Instance.start`: record the forked child's pid, poll
liveness up to 3 times; on confirmation fire the started-callback and return
true, otherwise return false (the recorded pid is kept). -/
def Instance.start (inst : Instance) (env : StartEnv) :
    Bool × Instance × Option CallbackState :=
  match env.forkPid with
  | none => (false, inst, none)
  | some p =>
    let inst1 := { inst with pid := some p }
    match inst1.startAttempts env.probes 0 3 with
    | (true, inst2) => (true, inst2, some .started)
    | (false, inst2) => (false, inst2, none)

/-- Environment of one `Instance.stop` call: the probe of the initial
`is_running` test, the result of `os.kill(pid, SIGTERM)`, and the probes of
the 10-iteration confirmation poll. -/
structure StopEnv where
  firstProbe : Probe
  killRes : KillResult
  probes : Nat → Probe

/-- The `for i in range(10): if not self.is_running(): ...` confirmation loop
of `Instance.stop`. -/
def Instance.stopAttempts (probes : Nat → Probe) : Nat → Nat → Instance → Bool × Instance
  | _, 0, inst => (false, inst)
  | i, r + 1, inst =>
    match inst.isRunning (probes i) with
    | (false, inst') => (true, inst')
    | (true, inst') => Instance.stopAttempts probes (i + 1) r inst'

/-- `Instance.stop`.  If not running: clear the pid, fire the stopped-callback
and return true.  Otherwise send SIGTERM; on successful delivery poll up to
10 times, and on observed death clear the pid, fire the callback and return
true.  `ESRCH` from the kill is silently ignored (`pass`) and `EPERM` is
logged as a hard error; both fall through to the final `return False`. -/
def Instance.stop (inst : Instance) (env : StopEnv) :
    Bool × Instance × Option CallbackState :=
  match inst.isRunning env.firstProbe with
  | (false, inst') => (true, { inst' with pid := none }, some .stopped)
  | (true, inst') =>
    match env.killRes with
    | .ok =>
      match inst'.stopAttempts env.probes 0 10 with
      | (true, inst'') => (true, { inst'' with pid := none }, some .stopped)
      | (false, inst'') => (false, inst'', none)
    | .esrch => (false, inst', none)
    | .eperm => (false, inst', none)

/-- Environment of one `Instance.report` call: the probe of the `is_running`
test and whether `os.kill(pid, SIGUSR1)` succeeded. -/
structure ReportEnv where
  probe : Probe
  killOk : Bool

/-- `Instance.report`: false when not running or when no report address is
configured; otherwise send SIGUSR1 and, on successful delivery, increment
`reported_count` and return true. -/
def Instance.report (inst : Instance) (env : ReportEnv) : Bool × Instance :=
  match inst.isRunning env.probe with
  | (false, inst') => (false, inst')
  | (true, inst') =>
    match inst'.report_addr with
    | none => (false, inst')
    | some _ =>
      if env.killOk then
        (true, { inst' with reported_count := inst'.reported_count + 1 })
      else
        (false, inst')

/-! ### Worker-side context (`service.Context`, child branch of `Instance.start`) -/

/-- How `handler.start()` finishes inside the worker process: a normal
return, an explicit exit request (`raise SystemExit(code)`), or any other
unhandled exception. -/
inductive HandlerOutcome where
  | normal
  | sysExit (code : Nat)
  | exn
deriving DecidableEq

/-- `Context.start`: runs `handler.start()` inside `try: ... except:`.  The
bare `except:` of the source (Python 2) catches every raised object —
`SystemExit` included — calls `handler.stop()` and sets `exit_code = 1`;
a normal return keeps `exit_code = 0`.  The function then calls
`os._exit(exit_code)` and never returns to its caller.  Result: the exit
code passed to `os._exit`, paired with whether `handler.stop()` ran. -/
def Context.start (o : HandlerOutcome) : Nat × Bool :=
  match o with
  | .normal => (0, false)
  | .sysExit _ => (1, true)
  | .exn => (1, true)

/-- Exit code of the worker process for a given handler outcome.  The child
branch of `Instance.start` wraps `context.start()` in its own
`except SystemExit` / `except Exception` handlers, but `Context.start`
terminates the process itself via `os._exit`, so those branches never see an
exception from the handler and the worker's exit code is exactly the one
computed by `Context.start`. -/
def Instance.childExitCode (o : HandlerOutcome) : Nat :=
  (Context.start o).1

/-! ### Heap of `Instance` objects (models Python object identity) -/

/-- Mutable store of `Instance` objects, keyed by instance name (unique per
object: each `Service` allocates every sequence number once). -/
def Heap := List (String × Instance)
deriving DecidableEq

/-- Read an instance object. -/
def Heap.get : Heap → String → Option Instance
  | [], _ => none
  | (k, v) :: rest, nm => if k = nm then some v else Heap.get rest nm

/-- Write (mutate) an instance object. -/
def Heap.set : Heap → String → Instance → Heap
  | [], nm, i => [(nm, i)]
  | (k, v) :: rest, nm, i =>
    if k = nm then (nm, i) :: rest else (k, v) :: Heap.set rest nm i

/-! ### `service.Service` -/

/-- State of `service.Service`: name, report address, last allocated sequence
number, and the live-instance list (names, i.e. references into the heap). -/
structure Service where
  name : String
  report_addr : Option (String × Nat)
  seq_number : Nat
  instances : List String
deriving DecidableEq

/-- `Service.__callback`: `CALLBACK_STATE_STARTED` appends the instance to
`self.__instances`; `CALLBACK_STATE_STOPPED` removes its first occurrence
(`list.remove`, with `except: pass` turning an absent element into a
no-op). -/
def Service.callback (s : Service) (st : CallbackState) (instName : String) : Service :=
  match st with
  | .started => { s with instances := s.instances ++ [instName] }
  | .stopped => { s with instances := s.instances.erase instName }

/-- The `"%s-%d" % (self.__name, self.__seq_number)` instance name. -/
def Service.mkName (serviceName : String) (n : Nat) : String :=
  serviceName ++ "-" ++ toString n

/-- `Service.start`: allocate the next sequence number, build the Instance,
ask it to start; on success (the started-callback registered it in
`live_instances`) return its name and record the object in the heap,
otherwise return none.  The sequence number stays consumed either way. -/
def Service.start (s : Service) (h : Heap) (env : StartEnv) :
    Option String × Service × Heap :=
  let seq := s.seq_number + 1
  let nm := Service.mkName s.name seq
  let inst0 : Instance :=
    { seq_number := seq, serviceName := s.name, name := nm,
      report_addr := s.report_addr, pid := none, reported_count := 0,
      exit_code := none }
  match inst0.start env with
  | (true, inst', _) =>
    (some nm, { s with seq_number := seq, instances := s.instances ++ [nm] },
     h.set nm inst')
  | (false, _, _) => (none, { s with seq_number := seq }, h)

/-- Repeated `Service.start` calls (environment `envs k` for the k-th call),
collecting each call's result. -/
def Service.run (envs : Nat → StartEnv) :
    Service → Heap → Nat → Nat → Service × Heap × List (Option String)
  | s, h, _, 0 => (s, h, [])
  | s, h, k, n + 1 =>
    let r := s.start h (envs k)
    let rs := Service.run envs r.2.1 r.2.2 (k + 1) n
    (rs.1, rs.2.1, r.1 :: rs.2.2)

/-! ### `pool.Pool` -/

/-- One element of `Pool.__services`: the attached service and its desired
instance count (`multiply`; `0` models the falsy `None`/`0` of the source,
under which the service is registered but never spawned). -/
structure PoolEntry where
  service : Service
  multiply : Nat
deriving DecidableEq

/-- Whole supervisor state: the pool's attached services, its flat list
`Pool.__instances` (names, i.e. references into the heap), its stopped flag,
and the heap of all `Instance` objects. -/
structure Sys where
  entries : List PoolEntry
  instances : List String
  stopped : Bool
  heap : Heap
deriving DecidableEq

/-- Route a callback fired by an instance to its owning service (the
`callback` closure captured at `Instance` construction). -/
def applyCallback (entries : List PoolEntry) (ev : Option CallbackState)
    (serviceName instName : String) : List PoolEntry :=
  match ev with
  | none => entries
  | some st =>
    entries.map fun en =>
      if en.service.name = serviceName then
        { en with service := en.service.callback st instName }
      else en

/-- The signal-handler environment: oracle data consumed by one
`Pool.signal_handler` invocation, indexed by the position of each instance
in `Pool.__instances`. `probe1` feeds the death-scan `is_running` calls,
`restart` the `instance.start()` restarts, `probe2` the final
`all([not i.is_running() ...])` scan, and `stopEnvs` the instance stops of a
self-triggered `Pool.stop`. -/
structure SigEnv where
  probe1 : Nat → Probe
  restart : Nat → StartEnv
  probe2 : Nat → Probe
  stopEnvs : Nat → StopEnv

/-- Body of the SIGCHLD scan for one tracked instance: probe it with
`is_running`; when it is not running (and the pool is not stopped), keep it
untouched if its last observed exit code is exactly 0, otherwise call
`instance.start()` on it.  Returns the instance's new state and the callback
it fired (the started-callback when the restart confirmed liveness). -/
def stepInstance (inst : Instance) (stopped : Bool) (p : Probe) (senv : StartEnv) :
    Instance × Option CallbackState :=
  let pr := inst.isRunning p
  if pr.1 || stopped then (pr.2, none)
  else if pr.2.exit_code = some 0 then (pr.2, none)
  else (pr.2.start senv).2

/-- The `for instance in self.__instances:` death scan of
`Pool.signal_handler`, threading the heap and the services touched by
restart callbacks. -/
def processList : Heap → List PoolEntry → Bool → List String → Nat → SigEnv →
    Heap × List PoolEntry
  | heap, entries, _, [], _, _ => (heap, entries)
  | heap, entries, stopped, nm :: rest, i, env =>
    match heap.get nm with
    | none => processList heap entries stopped rest (i + 1) env
    | some inst =>
      let si := stepInstance inst stopped (env.probe1 i) (env.restart i)
      processList (heap.set nm si.1)
        (applyCallback entries si.2 si.1.serviceName nm) stopped rest (i + 1) env

/-- The `[not i.is_running() for i in self.__instances]` comprehension of the
final all-dead check: every instance is probed (recording exit statuses),
producing the list of `is_running` results. -/
def probeAll (probe2 : Nat → Probe) : Heap → List String → Nat → List Bool × Heap
  | heap, [], _ => ([], heap)
  | heap, nm :: rest, i =>
    match heap.get nm with
    | none =>
      let r := probeAll probe2 heap rest (i + 1)
      (false :: r.1, r.2)
    | some inst =>
      let pr := inst.isRunning (probe2 i)
      let r := probeAll probe2 (heap.set nm pr.2) rest (i + 1)
      (pr.1 :: r.1, r.2)

/-- The `for instance in self.__instances: instance.stop()` loop of
`Pool.stop` (each stop's return value is ignored). -/
def stopInstances (stopEnvs : Nat → StopEnv) :
    Heap → List PoolEntry → List String → Nat → Heap × List PoolEntry
  | heap, entries, [], _ => (heap, entries)
  | heap, entries, nm :: rest, i =>
    match heap.get nm with
    | none => stopInstances stopEnvs heap entries rest (i + 1)
    | some inst =>
      let r := inst.stop (stopEnvs i)
      stopInstances stopEnvs (heap.set nm r.2.1)
        (applyCallback entries r.2.2 r.2.1.serviceName nm) rest (i + 1)

/-- `Pool.stop`: mark the pool stopped, stop every tracked instance
(failures ignored), and always return true. -/
def Sys.poolStop (sys : Sys) (stopEnvs : Nat → StopEnv) : Bool × Sys :=
  let sys0 := { sys with stopped := true }
  let r := stopInstances stopEnvs sys0.heap sys0.entries sys0.instances 0
  (true, { sys0 with heap := r.1, entries := r.2 })

/-- The two signals handled by `Pool.signal_handler`. -/
inductive Sig where
  | sigchld
  | sigterm
deriving DecidableEq

/-- `Pool.signal_handler`.  On SIGCHLD (and only when the pool is not
stopped): scan every tracked instance, restarting the dead ones whose last
observed exit code is not 0; then, if every tracked instance is observed not
running and the pool has not been stopped, stop the pool.  On SIGTERM:
unconditionally stop the pool. -/
def Sys.signalHandler (sys : Sys) (sig : Sig) (env : SigEnv) : Sys :=
  match sig with
  | .sigterm => (sys.poolStop env.stopEnvs).2
  | .sigchld =>
    if sys.stopped then sys
    else
      let pl := processList sys.heap sys.entries sys.stopped sys.instances 0 env
      let sys1 : Sys := { sys with heap := pl.1, entries := pl.2 }
      let pa := probeAll env.probe2 sys1.heap sys1.instances 0
      let sys2 : Sys := { sys1 with heap := pa.2 }
      if pa.1.all (fun r => !r) && !sys2.stopped then
        (sys2.poolStop env.stopEnvs).2
      else sys2

/-- The `for i in range(service['multiply'])` inner loop of `Pool.start`:
spawn `m` instances of one service, appending each started instance to the
pool's flat list (`acc`), aborting on the first failure. -/
def serviceSpawn (envs : Nat → StartEnv) :
    Service → Heap → List String → Nat → Nat →
    Bool × Service × Heap × List String × Nat
  | svc, h, acc, k, 0 => (true, svc, h, acc, k)
  | svc, h, acc, k, m + 1 =>
    match svc.start h (envs k) with
    | (some nm, svc', h') => serviceSpawn envs svc' h' (acc ++ [nm]) (k + 1) m
    | (none, svc', h') => (false, svc', h', acc, k + 1)

/-- The `for service in self.__services:` outer loop of `Pool.start`
(`done` accumulates the already-processed entries in order). -/
def poolStartEntries (envs : Nat → StartEnv) :
    List PoolEntry → List PoolEntry → Heap → List String → Nat →
    Bool × List PoolEntry × Heap × List String × Nat
  | done, [], h, acc, k => (true, done, h, acc, k)
  | done, en :: rest, h, acc, k =>
    match serviceSpawn envs en.service h acc k en.multiply with
    | (true, svc', h', acc', k') =>
      poolStartEntries envs (done ++ [{ en with service := svc' }]) rest h' acc' k'
    | (false, svc', h', acc', _) =>
      (false, done ++ [{ en with service := svc' }] ++ rest, h', acc', 0)

/-- `Pool.start`: clear the stopped flag, install the signal handlers, then
start `multiply` instances of every attached service; the first instance
start failure triggers `Pool.stop` (full rollback) and a false return. -/
def Sys.poolStart (sys : Sys) (envs : Nat → StartEnv) (stopEnvs : Nat → StopEnv) :
    Bool × Sys :=
  let sys0 : Sys := { sys with stopped := false }
  let r := poolStartEntries envs [] sys0.entries sys0.heap sys0.instances 0
  let sysR : Sys :=
    { sys0 with entries := r.2.1, heap := r.2.2.1, instances := r.2.2.2.1 }
  if r.1 then (true, sysR) else (false, (sysR.poolStop stopEnvs).2)

/-- An explicit `instance.stop()` call on a tracked instance, seen at the
system level: the heap object is stopped and the callback it fires reaches
its owning service. -/
def Sys.instanceStop (sys : Sys) (nm : String) (env : StopEnv) : Bool × Sys :=
  match sys.heap.get nm with
  | none => (false, sys)
  | some inst =>
    let r := inst.stop env
    (r.1, { sys with heap := sys.heap.set nm r.2.1,
                     entries := applyCallback sys.entries r.2.2 r.2.1.serviceName nm })

/-! ### `daemon.Daemon.stop` -/

/-- Environment of one `Daemon.stop` call: the pid read from the pid file
(`none` when the file is missing or unreadable), `alive t` = whether
`/proc/<pid>/` exists at the t-th existence check, and `kill t` = the result
of the t-th `os.kill(pid, SIGTERM)`. -/
structure DaemonStopEnv where
  pid : Option Nat
  alive : Nat → Bool
  kill : Nat → KillResult

/-- The `while os.path.exists('/proc/%d/' % pid):` loop of `Daemon.stop`.
Each iteration re-checks existence, sends SIGTERM, and sleeps; any `OSError`
from the kill (ESRCH, EPERM or other) prints a diagnostic and breaks out.
The loop carries no retry bound, so it is embedded with explicit fuel:
`none` means the loop is still polling after `fuel` iterations.  On exit it
returns the time index at which the trailing existence check runs. -/
def daemonStopLoop (alive : Nat → Bool) (kill : Nat → KillResult) :
    Nat → Nat → Option Nat
  | _, 0 => none
  | t, fuel + 1 =>
    if alive t then
      match kill t with
      | .ok => daemonStopLoop alive kill (t + 1) fuel
      | .esrch => some (t + 1)
      | .eperm => some (t + 1)
    else some (t + 1)

/-- `Daemon.stop`: no pid on file means "Service not started" and success;
otherwise poll-and-signal until the process disappears or a kill fails, then
remove the pid file and report success exactly when `/proc/<pid>/` is gone.
A `none` result means the unbounded polling loop had not finished within the
given fuel. -/
def Daemon.stop (env : DaemonStopEnv) (fuel : Nat) : Option Bool :=
  match env.pid with
  | none => some true
  | some _ =>
    match daemonStopLoop env.alive env.kill 0 fuel with
    | none => none
    | some t => some (!env.alive t)

/-- `Daemon.stop` never finishes, whatever fuel it is given. -/
def DaemonStopDiverges (env : DaemonStopEnv) : Prop :=
  ∀ fuel, Daemon.stop env fuel = none

/-- A process that never exits and keeps accepting signals: `/proc/<pid>/`
always exists and every SIGTERM is delivered successfully. -/
def stuckDaemonEnv : DaemonStopEnv :=
  { pid := some 1, alive := fun _ => true, kill := fun _ => .ok }

/-! ### Report payloads (`Context.__send_report`, `Pool.collect_reports`)

The JSON codec is an external collaborator of this design (spec §1): the
socket transport plus `json.dumps`/`json.loads` pair is modelled as carrying
JSON values themselves. -/

/-- JSON values. -/
inductive Jval where
  | jnull
  | jbool (b : Bool)
  | jnum (n : Int)
  | jstr (s : String)
  | jarr (xs : List Jval)
  | jobj (fields : List (String × Jval))

/-- Field lookup in a JSON object (Python `dict` access). -/
def objGet : List (String × Jval) → String → Option Jval
  | [], _ => none
  | (k, v) :: rest, key => if k = key then some v else objGet rest key

/-- Field assignment in a JSON object (Python `dict` item assignment:
replace an existing key or append a new one). -/
def objSet : List (String × Jval) → String → Jval → List (String × Jval)
  | [], key, v => [(key, v)]
  | (k, w) :: rest, key, v =>
    if k = key then (key, v) :: rest else (k, w) :: objSet rest key v

/-- The worker-context data serialized by `Context.__send_report` alongside
the handler's report value. -/
structure Ctx where
  pid : Nat
  stopped : Bool
  started_at : String
  online : Int
  handler : String
  name : String
  report_addr : Option (String × Nat)

/-- The JSON document a worker pushes for one report request. -/
def workerMsg (ctx : Ctx) (rep : Jval) : Jval :=
  .jobj [("pid", .jnum ctx.pid), ("stopped", .jbool ctx.stopped),
         ("started_at", .jstr ctx.started_at), ("online", .jnum ctx.online),
         ("handler", .jstr ctx.handler), ("name", .jstr ctx.name),
         ("report", rep)]

/-- `Context.__send_report`: with no report address configured nothing is
sent; otherwise the wrapped JSON document is pushed over a short-lived
connection (the value actually written to the socket). -/
def Context.sendReport (ctx : Ctx) (rep : Jval) : Option Jval :=
  match ctx.report_addr with
  | none => none
  | some _ => some (workerMsg ctx rep)

/-- Environment of one `Pool.collect_reports` call, indexed by the position
of each instance in `Pool.__instances`: the `Instance.report` environments,
and for every instance whose report call succeeded, the payload read from
the accepted connection (`none` = `socket.timeout` while waiting). -/
structure CollectEnv where
  reportEnvs : Nat → ReportEnv
  received : Nat → Option Jval

/-- The per-instance loop of `Pool.collect_reports`: call
`instance.report()`; when it succeeds, wait for the pushed payload and file
it under the instance's name in the `instances` object (a timeout is logged
and skipped). -/
def collectLoop (env : CollectEnv) :
    Heap → List String → Nat → List (String × Jval) → Heap × List (String × Jval)
  | heap, [], _, acc => (heap, acc)
  | heap, nm :: rest, i, acc =>
    match heap.get nm with
    | none => collectLoop env heap rest (i + 1) acc
    | some inst =>
      let r := inst.report (env.reportEnvs i)
      let heap' := heap.set nm r.2
      if r.1 then
        match env.received i with
        | some payload => collectLoop env heap' rest (i + 1) (objSet acc nm payload)
        | none => collectLoop env heap' rest (i + 1) acc
      else collectLoop env heap' rest (i + 1) acc

/-- `Pool.collect_reports`: build the aggregate envelope and attach every
collected worker payload under its instance's name. -/
def Sys.collectReports (sys : Sys) (env : CollectEnv)
    (startedAt : String) (online : Int) : Sys × Jval :=
  let r := collectLoop env sys.heap sys.instances 0 []
  ({ sys with heap := r.1 },
   .jobj [("started_at", .jstr startedAt), ("online", .jnum online),
          ("success", .jbool true),
          ("instances_count", .jnum sys.instances.length),
          ("instances", .jobj r.2)])

/-- Field projection on a JSON value (`none` on non-objects). -/
def Jval.getField (v : Jval) (key : String) : Option Jval :=
  match v with
  | .jobj fields => objGet fields key
  | _ => none

/-- A stop environment under which any `Instance.stop` call succeeds: either
the first liveness probe already observes a clean exit, or the instance is
alive, the SIGTERM is delivered, and the first confirmation poll observes
the exit. -/
def BenignStop (e : StopEnv) : Prop :=
  e.firstProbe = .exitedCode 0
  ∨ (e.firstProbe = .alive ∧ e.killRes = .ok ∧ e.probes 0 = .exitedCode 0)

/-! ### Concrete scenarios used by witnesses and counterexamples -/

/-- A fork that succeeds (child pid `p`) with a child that stays alive
through the confirmation polls. -/
def okStartEnv (p : Nat) : StartEnv :=
  { forkPid := some p, probes := fun _ => .alive }

/-- A stop whose target is observed to terminate cleanly at the first
confirmation poll. -/
def cleanStopEnv : StopEnv :=
  { firstProbe := .alive, killRes := .ok, probes := fun _ => .exitedCode 0 }

/-- A one-service, one-instance pool before `Pool.start` (claim C2). -/
def c2sys0 : Sys :=
  { entries := [{ service := { name := "a", report_addr := none, seq_number := 0,
                               instances := [] },
                  multiply := 1 }],
    instances := [], stopped := false, heap := [] }

/-- The pool after a successful `Pool.start` (claim C2). -/
def c2sys1 : Sys :=
  (c2sys0.poolStart (fun _ => okStartEnv 100) (fun _ => cleanStopEnv)).2

/-- The pool after an explicit, observed `instance.stop()` (claim C2). -/
def c2sys2 : Sys :=
  (c2sys1.instanceStop "a-1" cleanStopEnv).2

/-- A one-service, one-instance pool before `Pool.start` (claim C5). -/
def c5sys0 : Sys :=
  { entries := [{ service := { name := "b", report_addr := none, seq_number := 0,
                               instances := [] },
                  multiply := 1 }],
    instances := [], stopped := false, heap := [] }

/-- The pool after a successful `Pool.start` (claim C5). -/
def c5sys1 : Sys :=
  (c5sys0.poolStart (fun _ => okStartEnv 200) (fun _ => cleanStopEnv)).2

/-- Death-handler environment for claim C5: the instance is observed dead by
an abnormal termination, the restart forks pid 201, and the restarted
process is alive at the final scan. -/
def c5sigEnv : SigEnv :=
  { probe1 := fun _ => .signalled, restart := fun _ => okStartEnv 201,
    probe2 := fun _ => .alive, stopEnvs := fun _ => cleanStopEnv }

/-- The pool after the death handler restarted the instance in place
(claim C5): the service's live list now holds the same object twice. -/
def c5sys2 : Sys := c5sys1.signalHandler .sigchld c5sigEnv

/-- The pool after the first explicit `instance.stop()` (claim C5). -/
def c5sys3 : Sys := (c5sys2.instanceStop "b-1" cleanStopEnv).2

/-- The pool after a second, repeated `instance.stop()` on the
already-stopped instance (claim C5). -/
def c5sys4 : Sys := (c5sys3.instanceStop "b-1" cleanStopEnv).2

/-- A pool with two tracked instances of one service, both running
(claim C1). -/
def c1sys : Sys :=
  { entries := [{ service := { name := "c", report_addr := none, seq_number := 2,
                               instances := ["c-1", "c-2"] },
                  multiply := 2 }],
    instances := ["c-1", "c-2"], stopped := false,
    heap := [("c-1", { seq_number := 1, serviceName := "c", name := "c-1",
                       report_addr := none, pid := some 50, reported_count := 0,
                       exit_code := none }),
             ("c-2", { seq_number := 2, serviceName := "c", name := "c-2",
                       report_addr := none, pid := some 51, reported_count := 0,
                       exit_code := none })] }

/-- Death-handler environment for claim C1: instance 0 is observed exited
with code 0, instance 1 is observed abnormally terminated; the restart of
instance 1 forks pid 61 and confirms liveness; the final scan sees instance
0 gone and instance 1 alive. -/
def c1env : SigEnv :=
  { probe1 := fun i => if i = 0 then .exitedCode 0 else .signalled,
    restart := fun _ => okStartEnv 61,
    probe2 := fun i => if i = 0 then .noProc else .alive,
    stopEnvs := fun _ => cleanStopEnv }

/-- Death-handler environment for claim C1's self-stop clause: both
instances are observed exited with code 0 everywhere, so nothing is
restarted and the final scan sees every instance dead. -/
def c1envAllDead : SigEnv :=
  { probe1 := fun _ => .exitedCode 0,
    restart := fun _ => okStartEnv 62,
    probe2 := fun _ => .noProc,
    stopEnvs := fun _ => cleanStopEnv }

/-- A running instance targeted by `Instance.stop` whose SIGTERM delivery
fails (claims C6 and C7 use this instance shape). -/
def c7inst : Instance :=
  { seq_number := 1, serviceName := "d", name := "d-1", report_addr := none,
    pid := some 42, reported_count := 0, exit_code := none }

/-- Stop environment where the process exists at the liveness probe but
vanishes before the SIGTERM, so the kill raises no-such-process. -/
def esrchStopEnv : StopEnv :=
  { firstProbe := .alive, killRes := .esrch, probes := fun _ => .alive }

/-- Stop environment where the SIGTERM raises permission-denied. -/
def epermStopEnv : StopEnv :=
  { firstProbe := .alive, killRes := .eperm, probes := fun _ => .alive }

/-- `Daemon.stop` target that disappears right after the first SIGTERM
raises no-such-process. -/
def daemonEsrchEnv : DaemonStopEnv :=
  { pid := some 7, alive := fun t => t == 0, kill := fun _ => .esrch }

/-- `Daemon.stop` target that survives and rejects signals with
permission-denied. -/
def daemonEpermEnv : DaemonStopEnv :=
  { pid := some 7, alive := fun _ => true, kill := fun _ => .eperm }

/-- `Daemon.stop` target that accepts the SIGTERM and disappears at the
third existence check (claim C8's terminating witness). -/
def daemonDyingEnv : DaemonStopEnv :=
  { pid := some 9, alive := fun t => decide (t < 2), kill := fun _ => .ok }

/-- A service about to be started repeatedly (claim C10). -/
def c10svc : Service :=
  { name := "e", report_addr := none, seq_number := 0, instances := [] }

/-- Start environments for claim C10: the second call's fork fails, the
others succeed. -/
def c10envs : Nat → StartEnv :=
  fun k => if k = 1 then { forkPid := none, probes := fun _ => .alive }
           else okStartEnv (300 + k)

/-- A pool of one service wanting two instances whose second fork fails
(claim C4's witness). -/
def c4sys0 : Sys :=
  { entries := [{ service := { name := "f", report_addr := none, seq_number := 0,
                               instances := [] },
                  multiply := 2 }],
    instances := [], stopped := false, heap := [] }

/-- Worker context of the reporting instance in claim C9's witness. -/
def c9ctx : Ctx :=
  { pid := 400, stopped := false, started_at := "01.01.2026 00:00:00 UTC",
    online := 5, handler := "Handler", name := "g-1",
    report_addr := some ("127.0.0.1", 2001) }

/-- The handler-produced report value in claim C9's witness. -/
def c9rep : Jval := .jobj [("status", .jnum 100)]

/-- A pool tracking two running instances with report addresses configured
(claim C9's witness). -/
def c9sys : Sys :=
  { entries := [{ service := { name := "g", report_addr := some ("127.0.0.1", 2001),
                               seq_number := 2, instances := ["g-1", "g-2"] },
                  multiply := 2 }],
    instances := ["g-1", "g-2"], stopped := false,
    heap := [("g-1", { seq_number := 1, serviceName := "g", name := "g-1",
                       report_addr := some ("127.0.0.1", 2001), pid := some 400,
                       reported_count := 0, exit_code := none }),
             ("g-2", { seq_number := 2, serviceName := "g", name := "g-2",
                       report_addr := some ("127.0.0.1", 2001), pid := some 401,
                       reported_count := 0, exit_code := none })] }

/-- Collection environment for claim C9's witness: both report requests are
delivered, instance `g-1` pushes the worker payload built from `c9ctx` and
`c9rep`, instance `g-2` pushes an unrelated payload. -/
def c9env : CollectEnv :=
  { reportEnvs := fun _ => { probe := .alive, killOk := true },
    received := fun i => if i = 0 then some (workerMsg c9ctx c9rep)
                         else some (.jobj [("pid", .jnum 401)]) }

/-! ### Helper lemmas -/

theorem Heap.get_set_self (h : Heap) (nm : String) (i : Instance) :
    (h.set nm i).get nm = some i := by
  induction h with
  | nil => simp [Heap.set, Heap.get]
  | cons kv rest ih =>
    obtain ⟨k, v⟩ := kv
    by_cases hk : k = nm
    · simp [Heap.set, hk, Heap.get]
    · simp [Heap.set, hk, Heap.get, ih]

theorem Heap.get_set_ne (h : Heap) (nm nm' : String) (i : Instance)
    (hne : nm' ≠ nm) : (h.set nm i).get nm' = h.get nm' := by
  induction h with
  | nil => simp [Heap.set, Heap.get, Ne.symm hne]
  | cons kv rest ih =>
    obtain ⟨k, v⟩ := kv
    by_cases hk : k = nm
    · subst hk
      simp [Heap.set, Heap.get, Ne.symm hne]
    · by_cases hk' : k = nm'
      · subst hk'
        simp [Heap.set, hk, Heap.get]
      · simp [Heap.set, hk, Heap.get, hk', ih]

theorem Instance.isRunning_pid (inst : Instance) (p : Probe) :
    (inst.isRunning p).2.pid = inst.pid := by
  cases hp : inst.pid <;> cases p <;> simp [Instance.isRunning, hp]

theorem Instance.isRunning_fields (inst : Instance) (p : Probe) :
    (inst.isRunning p).2.pid = inst.pid
    ∧ (inst.isRunning p).2.serviceName = inst.serviceName
    ∧ (inst.isRunning p).2.name = inst.name
    ∧ (inst.isRunning p).2.report_addr = inst.report_addr
    ∧ (inst.isRunning p).2.reported_count = inst.reported_count := by
  cases hp : inst.pid <;> cases p <;> simp [Instance.isRunning, hp]

/-! ### Claim C3 -/

/-- C3 counterexample: a handler that requests an explicit exit with code 5
(`raise SystemExit(5)`) makes the worker terminate with exit code 1 — not
with the requested code 5 — because the bare `except:` of `Context.start`
catches `SystemExit` before `Instance.start`'s `except SystemExit` branch
can see it. -/
theorem C3_sysexit_counterexample :
    Instance.childExitCode (HandlerOutcome.sysExit 5) = 1
    ∧ Instance.childExitCode (HandlerOutcome.sysExit 5) ≠ 5 := by
  constructor <;> decide

/-- C3 (amended): when `handler.start()` returns inside the worker process,
the process terminates with exit code 0 for a normal return and with exit
code 1 for every raised exception — explicit exit requests (`SystemExit`)
included, whatever code they request — because `Context.start` intercepts
every raise with a bare `except:` and calls `os._exit` itself. -/
theorem C3_worker_exit_amended :
    Instance.childExitCode .normal = 0
    ∧ (∀ c, Instance.childExitCode (.sysExit c) = 1)
    ∧ Instance.childExitCode .exn = 1 :=
  ⟨rfl, fun _ => rfl, rfl⟩

/-- C3 amended witness: an explicit exit request with code 9 still
terminates the worker with exit code 1. -/
theorem C3_worker_exit_amended_witness :
    Instance.childExitCode (HandlerOutcome.sysExit 9) = 1 :=
  C3_worker_exit_amended.2.1 9

/-! ### Claim C6 -/

/-- C6: `Instance.report` returns false and leaves `reported_count`
unchanged when the instance is not running or has no configured report
address; otherwise (running, address configured, and the report-request
signal delivered) it returns true and increments `reported_count` by
exactly one. -/
theorem C6_report_count (inst : Instance) (env : ReportEnv) :
    (((inst.isRunning env.probe).1 = false ∨ inst.report_addr = none) →
      (inst.report env).1 = false
      ∧ (inst.report env).2.reported_count = inst.reported_count)
    ∧ ((inst.isRunning env.probe).1 = true → inst.report_addr ≠ none →
       env.killOk = true →
       (inst.report env).1 = true
       ∧ (inst.report env).2.reported_count = inst.reported_count + 1) := by
  have hfields := Instance.isRunning_fields inst env.probe
  rcases hR : inst.isRunning env.probe with ⟨b, inst'⟩
  rw [hR] at hfields
  dsimp only at hfields
  obtain ⟨-, -, -, hra, hrc⟩ := hfields
  cases b with
  | false =>
    constructor
    · intro _
      simp [Instance.report, hR, hrc]
    · intro hcon
      simp at hcon
  | true =>
    constructor
    · rintro (hcon | haddr)
      · simp at hcon
      · rw [haddr] at hra
        simp [Instance.report, hR, hra, hrc]
    · intro _ haddr hkill
      rcases ha : inst.report_addr with - | a
      · exact absurd ha haddr
      · rw [ha] at hra
        simp [Instance.report, hR, hra, hkill, hrc]

/-- C6 witness: a running instance with a configured report address and a
delivered signal reports successfully and its count goes from 0 to 1; the
same instance shape without an address fails with the count unchanged. -/
theorem C6_report_count_witness :
    (Instance.report
      { seq_number := 1, serviceName := "g", name := "g-1",
        report_addr := some ("127.0.0.1", 2001), pid := some 400,
        reported_count := 0, exit_code := none }
      { probe := .alive, killOk := true }).1 = true
    ∧ (Instance.report
      { seq_number := 1, serviceName := "g", name := "g-1",
        report_addr := some ("127.0.0.1", 2001), pid := some 400,
        reported_count := 0, exit_code := none }
      { probe := .alive, killOk := true }).2.reported_count = 0 + 1
    ∧ (Instance.report c7inst { probe := .alive, killOk := true }).1 = false
    ∧ (Instance.report c7inst
        { probe := .alive, killOk := true }).2.reported_count = 0 := by
  refine ⟨?_, ?_, ?_, ?_⟩
  · exact ((C6_report_count _ _).2 (by decide) (by decide) rfl).1
  · exact ((C6_report_count _ _).2 (by decide) (by decide) rfl).2
  · exact ((C6_report_count c7inst _).1 (Or.inr rfl)).1
  · exact ((C6_report_count c7inst _).1 (Or.inr rfl)).2

/-! ### Claim C7 -/

/-- C7 counterexample: a stop operation (`Instance.stop`) whose SIGTERM
raises no-such-process does NOT report success: the `ESRCH` branch is a
silent `pass` that falls through to the final `return False`. -/
theorem C7_esrch_counterexample :
    (c7inst.stop esrchStopEnv).1 = false := by decide

/-- C7 (amended): `Daemon.stop` treats no-such-process as already stopped
and reports success, and reports failure on permission-denied while the
process survives; `Instance.stop`, however, reports failure on BOTH
no-such-process (silently swallowed) and permission-denied (logged as a
hard error). -/
theorem C7_signal_failure_amended :
    (∀ env : DaemonStopEnv, env.pid.isSome → env.alive 0 = true →
       env.kill 0 = .esrch → env.alive 1 = false →
       Daemon.stop env 1 = some true)
    ∧ (∀ env : DaemonStopEnv, env.pid.isSome → env.alive 0 = true →
       env.kill 0 = .eperm → env.alive 1 = true →
       Daemon.stop env 1 = some false)
    ∧ (∀ (inst : Instance) (env : StopEnv),
       (inst.isRunning env.firstProbe).1 = true → env.killRes = .esrch →
       (inst.stop env).1 = false)
    ∧ (∀ (inst : Instance) (env : StopEnv),
       (inst.isRunning env.firstProbe).1 = true → env.killRes = .eperm →
       (inst.stop env).1 = false) := by
  refine ⟨?_, ?_, ?_, ?_⟩
  · intro env hpid h0 hk h1
    obtain ⟨p, hp⟩ := Option.isSome_iff_exists.mp hpid
    simp [Daemon.stop, hp, daemonStopLoop, h0, hk, h1]
  · intro env hpid h0 hk h1
    obtain ⟨p, hp⟩ := Option.isSome_iff_exists.mp hpid
    simp [Daemon.stop, hp, daemonStopLoop, h0, hk, h1]
  · intro inst env hrun hk
    rcases hR : inst.isRunning env.firstProbe with ⟨b, inst'⟩
    rw [hR] at hrun
    simp at hrun
    subst hrun
    simp [Instance.stop, hR, hk]
  · intro inst env hrun hk
    rcases hR : inst.isRunning env.firstProbe with ⟨b, inst'⟩
    rw [hR] at hrun
    simp at hrun
    subst hrun
    simp [Instance.stop, hR, hk]

/-- C7 amended witness: concrete runs of all four cases. -/
theorem C7_signal_failure_amended_witness :
    Daemon.stop daemonEsrchEnv 1 = some true
    ∧ Daemon.stop daemonEpermEnv 1 = some false
    ∧ (c7inst.stop epermStopEnv).1 = false := by
  refine ⟨?_, ?_, ?_⟩
  · exact C7_signal_failure_amended.1 daemonEsrchEnv rfl rfl rfl rfl
  · exact C7_signal_failure_amended.2.1 daemonEpermEnv rfl rfl rfl rfl
  · exact C7_signal_failure_amended.2.2.2 c7inst epermStopEnv (by decide) rfl

/-! ### Claim C8 -/

theorem daemonStopLoop_none_of_alive_ok (alive : Nat → Bool)
    (kill : Nat → KillResult) (halive : ∀ t, alive t = true)
    (hkill : ∀ t, kill t = .ok) :
    ∀ (fuel t : Nat), daemonStopLoop alive kill t fuel = none := by
  intro fuel
  induction fuel with
  | zero => intro t; rfl
  | succ f ih =>
    intro t
    simp [daemonStopLoop, halive t, hkill t, ih]

/-- C8 counterexample: against a process that never exits and keeps
accepting signals, `Daemon.stop` never returns — its `while
os.path.exists('/proc/<pid>/')` loop carries no retry bound at all, so no
fuel makes the embedded loop finish. -/
theorem C8_stop_unbounded_counterexample : DaemonStopDiverges stuckDaemonEnv := by
  intro fuel
  simp [Daemon.stop, stuckDaemonEnv,
    daemonStopLoop_none_of_alive_ok (fun _ => true) (fun _ => .ok)
      (fun _ => rfl) (fun _ => rfl) fuel 0]

/-- C8 (amended): `Daemon.stop` polls with no retry bound: it terminates
with success once the process disappears (here: the process is gone from
the t-th existence check on, for t ≥ d), but for a process that never exits
and accepts every SIGTERM it polls forever and never returns a timeout
failure. -/
theorem C8_daemon_stop_amended :
    (∀ (env : DaemonStopEnv) (d : Nat), env.pid.isSome →
       (∀ t, env.alive t = decide (t < d)) → (∀ t, env.kill t = .ok) →
       Daemon.stop env (d + 1) = some true)
    ∧ (∀ env : DaemonStopEnv, env.pid.isSome →
       (∀ t, env.alive t = true) → (∀ t, env.kill t = .ok) →
       ∀ fuel, Daemon.stop env fuel = none) := by
  constructor
  · intro env d hpid halive hkill
    obtain ⟨p, hp⟩ := Option.isSome_iff_exists.mp hpid
    have hloop : ∀ (fuel t : Nat), t ≤ d → d < t + fuel →
        daemonStopLoop env.alive env.kill t fuel = some (d + 1) := by
      intro fuel
      induction fuel with
      | zero => intro t h1 h2; omega
      | succ f ih =>
        intro t h1 h2
        rcases Nat.lt_or_ge t d with hlt | hge
        · simp only [daemonStopLoop, halive t, hkill t, decide_eq_true hlt]
          exact ih (t + 1) hlt (by omega)
        · have htd : t = d := by omega
          subst htd
          simp [daemonStopLoop, halive t]
    have hfin : env.alive (d + 1) = false := by
      rw [halive (d + 1)]
      simp
    simp [Daemon.stop, hp, hloop (d + 1) 0 (by omega) (by omega), hfin]
  · intro env hpid halive hkill fuel
    obtain ⟨p, hp⟩ := Option.isSome_iff_exists.mp hpid
    simp [Daemon.stop, hp,
      daemonStopLoop_none_of_alive_ok env.alive env.kill halive hkill fuel 0]

/-- C8 amended witness: a process that disappears at the third existence
check makes `Daemon.stop` return success with fuel 3, and the stuck process
yields no result at fuel 1000. -/
theorem C8_daemon_stop_amended_witness :
    Daemon.stop daemonDyingEnv 3 = some true
    ∧ Daemon.stop stuckDaemonEnv 1000 = none := by
  constructor
  · exact C8_daemon_stop_amended.1 daemonDyingEnv 2 rfl (fun _ => rfl) (fun _ => rfl)
  · exact C8_daemon_stop_amended.2 stuckDaemonEnv rfl (fun _ => rfl) (fun _ => rfl) 1000

/-! ### Claim C5 -/

/-- C5 counterexample: a reachable state in which a repeated `stop()` on an
already-stopped instance has an observable side effect.  After the pool's
death handler restarts instance `b-1` in place, the service's live list
holds it twice (`Service.__callback` appended it again without the death
ever removing it).  The first explicit stop leaves one occurrence; the
second `stop()` call — on an instance that is already stopped (`pid` is
cleared) — returns true but erases the remaining occurrence, so the state
after the repeated stop differs from the state after the first one. -/
theorem C5_stop_counterexample :
    (c5sys3.heap.get "b-1").map Instance.pid = some none
    ∧ (c5sys3.instanceStop "b-1" cleanStopEnv).1 = true
    ∧ (c5sys3.entries.map fun en => en.service.instances) = [["b-1"]]
    ∧ (c5sys4.entries.map fun en => en.service.instances) = [[]]
    ∧ c5sys4 ≠ c5sys3 := by
  decide

/-- C5 (amended): a repeated `stop()` on an already-stopped instance
(`pid` cleared) returns true, leaves the instance state itself unchanged,
and keeps `is_running()` false; it does fire the stopped-callback again,
which is a no-op exactly when the instance no longer occurs in its
service's live list — the normal case — but removes a further occurrence
when the list still holds one (possible after an in-place restart by the
pool's death handler). -/
theorem C5_stop_idempotent_amended (inst : Instance) (env : StopEnv)
    (hpid : inst.pid = none) :
    inst.stop env = (true, inst, some .stopped)
    ∧ (inst.isRunning env.firstProbe).1 = false
    ∧ ∀ s : Service, inst.name ∉ s.instances → s.callback .stopped inst.name = s := by
  have hrun : inst.isRunning env.firstProbe = (false, inst) := by
    simp [Instance.isRunning, hpid]
  refine ⟨?_, by simp [hrun], ?_⟩
  · simp only [Instance.stop, hrun]
    cases inst
    simp_all
  · intro s hmem
    simp [Service.callback, List.erase_of_not_mem hmem]

/-- C5 amended witness: the stopped instance of the counterexample scenario,
stopped once more in isolation. -/
theorem C5_stop_idempotent_amended_witness :
    ({ seq_number := 1, serviceName := "b", name := "b-1", report_addr := none,
       pid := none, reported_count := 0, exit_code := some 0 : Instance }.stop
      cleanStopEnv)
      = (true, { seq_number := 1, serviceName := "b", name := "b-1",
                 report_addr := none, pid := none, reported_count := 0,
                 exit_code := some 0 : Instance }, some .stopped)
    ∧ ({ name := "b", report_addr := none, seq_number := 1,
         instances := [] : Service }.callback .stopped "b-1")
      = { name := "b", report_addr := none, seq_number := 1,
          instances := [] : Service } := by
  constructor
  · exact (C5_stop_idempotent_amended _ cleanStopEnv rfl).1
  · exact (C5_stop_idempotent_amended
      { seq_number := 1, serviceName := "b", name := "b-1", report_addr := none,
        pid := none, reported_count := 0, exit_code := some 0 }
      cleanStopEnv rfl).2.2 _ (by decide)

/-! ### Claim C10 -/

theorem Service.start_seq_name (s : Service) (h : Heap) (env : StartEnv) :
    ((s.start h env).2.1).seq_number = s.seq_number + 1
    ∧ ((s.start h env).2.1).name = s.name
    ∧ ((s.start h env).1 = none
       ∨ (s.start h env).1 = some (Service.mkName s.name (s.seq_number + 1))) := by
  simp only [Service.start]
  rcases hI : Instance.start
      { seq_number := s.seq_number + 1, serviceName := s.name,
        name := Service.mkName s.name (s.seq_number + 1),
        report_addr := s.report_addr, pid := none, reported_count := 0,
        exit_code := none } env with ⟨b, i2, ev⟩
  cases b <;> simp

theorem Service.run_results (envs : Nat → StartEnv) :
    ∀ (n : Nat) (s : Service) (h : Heap) (k : Nat),
      (Service.run envs s h k n).1.seq_number = s.seq_number + n
      ∧ (Service.run envs s h k n).1.name = s.name
      ∧ ∀ (j : Nat) (r : Option String),
          (Service.run envs s h k n).2.2.get? j = some r →
          r = none ∨ r = some (Service.mkName s.name (s.seq_number + j + 1)) := by
  intro n
  induction n with
  | zero =>
    intro s h k
    refine ⟨by simp [Service.run], by simp [Service.run], ?_⟩
    intro j r hj
    simp [Service.run] at hj
  | succ n ih =>
    intro s h k
    obtain ⟨hseq1, hname1, hres1⟩ := Service.start_seq_name s h (envs k)
    obtain ⟨ihseq, ihname, ihres⟩ :=
      ih (s.start h (envs k)).2.1 (s.start h (envs k)).2.2 (k + 1)
    refine ⟨?_, ?_, ?_⟩
    · simp only [Service.run]
      rw [ihseq, hseq1]
      omega
    · simp only [Service.run]
      rw [ihname, hname1]
    · intro j r hj
      simp only [Service.run] at hj
      cases j with
      | zero =>
        simp only [List.get?_cons_zero, Option.some.injEq] at hj
        subst hj
        rcases hres1 with h0 | h0 <;> rw [h0]
        · exact Or.inl rfl
        · right
          rw [Nat.add_zero]
      | succ j' =>
        simp only [List.get?_cons_succ] at hj
        rcases ihres j' r hj with h0 | h0
        · exact Or.inl h0
        · right
          rw [hname1, hseq1] at h0
          have harith : s.seq_number + 1 + j' + 1 = s.seq_number + (j' + 1) + 1 := by
            omega
          rw [harith] at h0
          exact h0

/-- C10: every `Service.start` call increments the service's sequence
counter by exactly one — also when the spawned instance fails to start and
none is returned — so over any run of `n` start calls the counter advances
by exactly `n`, and the `j`-th call either fails (`none`) or produces the
instance named `"<service>-<seq0+j+1>"`: a failed call permanently consumes
its number, later instances carry strictly larger numbers, and gaps appear
in the numbering of live instances. -/
theorem C10_sequence_consumption :
    (∀ (s : Service) (h : Heap) (env : StartEnv),
       ((s.start h env).2.1).seq_number = s.seq_number + 1)
    ∧ (∀ (envs : Nat → StartEnv) (s : Service) (h : Heap) (k n : Nat),
       (Service.run envs s h k n).1.seq_number = s.seq_number + n)
    ∧ (∀ (envs : Nat → StartEnv) (s : Service) (h : Heap) (k n j : Nat)
         (r : Option String),
       (Service.run envs s h k n).2.2.get? j = some r →
       r = none ∨ r = some (Service.mkName s.name (s.seq_number + j + 1))) :=
  ⟨fun s h env => (Service.start_seq_name s h env).1,
   fun envs s h k n => (Service.run_results envs n s h k).1,
   fun envs s h k n j r hj => (Service.run_results envs n s h k).2.2 j r hj⟩

/-- C10 witness: three starts of service `e` whose second fork fails yield
results `[some "e-1", none, some "e-3"]` — the counter still advanced to 3,
the failed call consumed number 2, and the third call got number 3. -/
theorem C10_sequence_consumption_witness :
    (Service.run c10envs c10svc [] 0 3).1.seq_number = 0 + 3
    ∧ ((some (Service.mkName "e" 3) : Option String) = none
       ∨ (some (Service.mkName "e" 3) : Option String)
         = some (Service.mkName "e" (0 + 2 + 1)))
    ∧ (Service.run c10envs c10svc [] 0 3).2.2 = [some "e-1", none, some "e-3"] := by
  refine ⟨?_, ?_, ?_⟩
  · exact C10_sequence_consumption.2.1 c10envs c10svc [] 0 3
  · exact C10_sequence_consumption.2.2 c10envs c10svc [] 0 3 2
      (some (Service.mkName "e" 3)) (by decide)
  · decide

/-! ### Claim C1 -/

theorem processList_get_not_mem :
    ∀ (names : List String) (heap : Heap) (entries : List PoolEntry)
      (stopped : Bool) (i : Nat) (env : SigEnv) (nm : String),
      nm ∉ names →
      (processList heap entries stopped names i env).1.get nm = heap.get nm := by
  intro names
  induction names with
  | nil => intro heap entries stopped i env nm _; rfl
  | cons hd rest ih =>
    intro heap entries stopped i env nm hnm
    have hne : nm ≠ hd := fun h => hnm (h ▸ List.mem_cons_self hd rest)
    have hrest : nm ∉ rest := fun h => hnm (List.mem_cons_of_mem hd h)
    cases hg : heap.get hd with
    | none =>
      simp only [processList, hg]
      exact ih _ _ _ _ _ _ hrest
    | some inst =>
      simp only [processList, hg]
      rw [ih _ _ _ _ _ _ hrest, Heap.get_set_ne _ _ _ _ hne]

theorem processList_get_at :
    ∀ (names : List String) (j : Nat) (heap : Heap) (entries : List PoolEntry)
      (stopped : Bool) (i : Nat) (env : SigEnv) (nm : String) (inst : Instance),
      names.Nodup → names.get? j = some nm → heap.get nm = some inst →
      (processList heap entries stopped names i env).1.get nm =
        some (stepInstance inst stopped (env.probe1 (i + j)) (env.restart (i + j))).1 := by
  intro names
  induction names with
  | nil =>
    intro j heap entries stopped i env nm inst _ hj _
    simp [List.get?] at hj
  | cons hd rest ih =>
    intro j heap entries stopped i env nm inst hnodup hj hh
    cases j with
    | zero =>
      simp only [List.get?_cons_zero, Option.some.injEq] at hj
      subst hj
      have hrest : hd ∉ rest := (List.nodup_cons.mp hnodup).1
      simp only [processList, hh]
      rw [processList_get_not_mem _ _ _ _ _ _ _ hrest, Heap.get_set_self,
        Nat.add_zero]
    | succ j' =>
      simp only [List.get?_cons_succ] at hj
      have hmem : nm ∈ rest := List.get?_mem hj
      have hne : nm ≠ hd := by
        rintro rfl
        exact (List.nodup_cons.mp hnodup).1 hmem
      have harith : i + 1 + j' = i + (j' + 1) := by omega
      cases hg : heap.get hd with
      | none =>
        simp only [processList, hg]
        rw [ih j' _ _ _ _ _ _ _ (List.nodup_cons.mp hnodup).2 hj hh, harith]
      | some ihd =>
        simp only [processList, hg]
        rw [ih j' _ _ _ _ _ _ _ (List.nodup_cons.mp hnodup).2 hj
          (by rw [Heap.get_set_ne _ _ _ _ hne]; exact hh), harith]

theorem stepInstance_clean (inst : Instance) (p : Probe) (senv : StartEnv)
    (h1 : (inst.isRunning p).1 = false)
    (h2 : (inst.isRunning p).2.exit_code = some 0) :
    (stepInstance inst false p senv).1 = (inst.isRunning p).2 := by
  simp [stepInstance, h1, h2]

theorem stepInstance_restart (inst : Instance) (p : Probe) (senv : StartEnv)
    (q : Nat) (h1 : (inst.isRunning p).1 = false)
    (h2 : (inst.isRunning p).2.exit_code ≠ some 0)
    (h3 : senv.forkPid = some q) (h4 : senv.probes 0 = .alive) :
    (stepInstance inst false p senv).1 = { (inst.isRunning p).2 with pid := some q } := by
  have hq : ({ (inst.isRunning p).2 with pid := some q } : Instance).isRunning
      (senv.probes 0) = (true, { (inst.isRunning p).2 with pid := some q }) := by
    rw [h4]
    rfl
  simp [stepInstance, h1, h2, Instance.start, h3, Instance.startAttempts, hq]

theorem Sys.poolStop_stopped (sys : Sys) (stopEnvs : Nat → StopEnv) :
    (sys.poolStop stopEnvs).2.stopped = true := rfl

/-- C1: what the pool's child-death handler does to a tracked instance it
observes not running, and to the pool itself.  With the pool not stopped,
tracked names distinct, and `inst` the heap object behind the `i`-th
tracked name: (a) if the death scan observes it not running with last
observed exit code exactly 0, the scan leaves it exactly as probed — in
particular its pid is unchanged, i.e. it is not restarted; (b) if the death
scan observes it not running with any other exit status (abnormal
termination recorded as `none` included), the scan immediately restarts it:
its heap object afterwards carries the pid of the newly forked process
(a different pid whenever the fork returns a fresh one); (c) if after the
scan the final liveness sweep observes every tracked instance not running,
`signal_handler` stops the pool itself. -/
theorem C1_death_handler (sys : Sys) (env : SigEnv) (i : Nat) (nm : String)
    (inst : Instance) (hstop : sys.stopped = false)
    (hnodup : sys.instances.Nodup)
    (hget : sys.instances.get? i = some nm)
    (hheap : sys.heap.get nm = some inst) :
    (((inst.isRunning (env.probe1 i)).1 = false →
      (inst.isRunning (env.probe1 i)).2.exit_code = some 0 →
      (processList sys.heap sys.entries sys.stopped sys.instances 0 env).1.get nm
        = some (inst.isRunning (env.probe1 i)).2
      ∧ (inst.isRunning (env.probe1 i)).2.pid = inst.pid)
    ∧ (∀ q : Nat, (inst.isRunning (env.probe1 i)).1 = false →
      (inst.isRunning (env.probe1 i)).2.exit_code ≠ some 0 →
      (env.restart i).forkPid = some q → (env.restart i).probes 0 = .alive →
      ∃ inst2,
        (processList sys.heap sys.entries sys.stopped sys.instances 0 env).1.get nm
          = some inst2
        ∧ inst2.pid = some q
        ∧ (inst.pid ≠ some q → inst2.pid ≠ inst.pid))
    ∧ ((probeAll env.probe2
          (processList sys.heap sys.entries sys.stopped sys.instances 0 env).1
          sys.instances 0).1.all (fun r => !r) = true →
       (sys.signalHandler .sigchld env).stopped = true)) := by
  have hmain := processList_get_at sys.instances i sys.heap sys.entries
    sys.stopped 0 env nm inst hnodup hget hheap
  rw [Nat.zero_add, hstop] at hmain
  refine ⟨?_, ?_, ?_⟩
  · intro h1 h2
    rw [hstop, hmain, stepInstance_clean inst _ _ h1 h2]
    exact ⟨rfl, Instance.isRunning_pid inst _⟩
  · intro q h1 h2 h3 h4
    rw [hstop, hmain, stepInstance_restart inst _ _ q h1 h2 h3 h4]
    refine ⟨_, rfl, rfl, ?_⟩
    intro hqp heq
    exact hqp heq.symm
  · intro hall
    rw [hstop] at hall
    simp [Sys.signalHandler, hstop, hall, Sys.poolStop_stopped]

/-- C1 witness: in the concrete two-instance pool, instance `c-1` (observed
exited with code 0) keeps pid 50 untouched, instance `c-2` (observed
abnormally terminated) is immediately restarted with the freshly forked pid
61 ≠ 51, and under the all-dead environment the pool stops itself. -/
theorem C1_death_handler_witness :
    ((processList c1sys.heap c1sys.entries c1sys.stopped c1sys.instances 0
        c1env).1.get "c-1"
      = some { seq_number := 1, serviceName := "c", name := "c-1",
               report_addr := none, pid := some 50, reported_count := 0,
               exit_code := some 0 })
    ∧ (∃ inst2,
        (processList c1sys.heap c1sys.entries c1sys.stopped c1sys.instances 0
          c1env).1.get "c-2" = some inst2 ∧ inst2.pid = some 61
        ∧ ((some 51 : Option Nat) ≠ some 61 → inst2.pid ≠ some 51))
    ∧ (c1sys.signalHandler .sigchld c1envAllDead).stopped = true := by
  refine ⟨?_, ?_, ?_⟩
  · have h := (C1_death_handler c1sys c1env 0 "c-1"
      { seq_number := 1, serviceName := "c", name := "c-1", report_addr := none,
        pid := some 50, reported_count := 0, exit_code := none }
      rfl (by decide) rfl rfl).1 (by decide) (by decide)
    exact h.1
  · exact (C1_death_handler c1sys c1env 1 "c-2"
      { seq_number := 2, serviceName := "c", name := "c-2", report_addr := none,
        pid := some 51, reported_count := 0, exit_code := none }
      rfl (by decide) rfl rfl).2.1 61 (by decide) (by decide) rfl rfl
  · exact (C1_death_handler c1sys c1envAllDead 0 "c-1"
      { seq_number := 1, serviceName := "c", name := "c-1", report_addr := none,
        pid := some 50, reported_count := 0, exit_code := none }
      rfl (by decide) rfl rfl).2.2 (by decide)

/-! ### Claim C2 -/

theorem Service.start_shape (s : Service) (h : Heap) (env : StartEnv) :
    ((s.start h env).1 = none ∧ (s.start h env).2.1.instances = s.instances
      ∧ (s.start h env).2.2 = h)
    ∨ (∃ nm v, (s.start h env).1 = some nm
        ∧ (s.start h env).2.1.instances = s.instances ++ [nm]
        ∧ (s.start h env).2.2 = h.set nm v) := by
  simp only [Service.start]
  rcases hI : Instance.start
      { seq_number := s.seq_number + 1, serviceName := s.name,
        name := Service.mkName s.name (s.seq_number + 1),
        report_addr := s.report_addr, pid := none, reported_count := 0,
        exit_code := none } env with ⟨b, i2, ev⟩
  cases b
  · left
    simp
  · right
    refine ⟨Service.mkName s.name (s.seq_number + 1), i2, ?_, ?_, ?_⟩ <;> simp

theorem serviceSpawn_delta (envs : Nat → StartEnv) :
    ∀ (m : Nat) (svc : Service) (h : Heap) (acc : List String) (k : Nat),
      ∃ delta : List String,
        (serviceSpawn envs svc h acc k m).2.1.instances = svc.instances ++ delta
        ∧ (serviceSpawn envs svc h acc k m).2.2.2.1 = acc ++ delta := by
  intro m
  induction m with
  | zero =>
    intro svc h acc k
    exact ⟨[], by simp [serviceSpawn], by simp [serviceSpawn]⟩
  | succ m ih =>
    intro svc h acc k
    have hshape := Service.start_shape svc h (envs k)
    rcases hs : svc.start h (envs k) with ⟨onm, svc', h'⟩
    rw [hs] at hshape
    dsimp only at hshape
    rcases hshape with ⟨h1, h2, h3⟩ | ⟨nm, v, h1, h2, h3⟩
    · subst h1
      refine ⟨[], ?_, ?_⟩ <;> simp [serviceSpawn, hs, h2]
    · subst h1
      obtain ⟨delta, hd1, hd2⟩ := ih svc' h' (acc ++ [nm]) (k + 1)
      refine ⟨nm :: delta, ?_, ?_⟩
      · simp only [serviceSpawn, hs]
        rw [hd1, h2]
        simp
      · simp only [serviceSpawn, hs]
        rw [hd2]
        simp

theorem poolStartEntries_join (envs : Nat → StartEnv) :
    ∀ (rest done : List PoolEntry) (h : Heap) (acc : List String) (k : Nat),
      (∀ en ∈ rest, en.service.instances = []) →
      acc = (done.map fun en => en.service.instances).join →
      (poolStartEntries envs done rest h acc k).1 = true →
      (poolStartEntries envs done rest h acc k).2.2.2.1 =
        ((poolStartEntries envs done rest h acc k).2.1.map
          fun en => en.service.instances).join := by
  intro rest
  induction rest with
  | nil =>
    intro done h acc k _ hacc _
    simpa [poolStartEntries] using hacc
  | cons en rest ih =>
    intro done h acc k hempty hacc htrue
    obtain ⟨delta, hinst, hacc'⟩ :=
      serviceSpawn_delta envs en.multiply en.service h acc k
    rcases hsp : serviceSpawn envs en.service h acc k en.multiply with
      ⟨b, svc', h', acc', k'⟩
    rw [hsp] at hinst hacc'
    dsimp only at hinst hacc'
    cases b
    · simp only [poolStartEntries, hsp] at htrue
      exact absurd htrue (by decide)
    · have hen : en.service.instances = [] := hempty en (List.mem_cons_self _ _)
      rw [hen, List.nil_append] at hinst
      simp only [poolStartEntries, hsp] at htrue ⊢
      refine ih (done ++ [{ en with service := svc' }]) h' acc' k' ?_ ?_ htrue
      · intro e he
        exact hempty e (List.mem_cons_of_mem _ he)
      · rw [hacc', hacc]
        simp [hinst]

theorem Instance.stopAttempts_serviceName (probes : Nat → Probe) :
    ∀ (r i : Nat) (inst : Instance),
      (Instance.stopAttempts probes i r inst).2.serviceName = inst.serviceName := by
  intro r
  induction r with
  | zero => intro i inst; rfl
  | succ r ih =>
    intro i inst
    have hf := Instance.isRunning_fields inst (probes i)
    rcases hR : inst.isRunning (probes i) with ⟨b, inst'⟩
    rw [hR] at hf
    dsimp only at hf
    cases b
    · simp [Instance.stopAttempts, hR, hf.2.1]
    · simp [Instance.stopAttempts, hR, ih, hf.2.1]

theorem Instance.stop_shape (inst : Instance) (env : StopEnv) :
    (inst.stop env).2.1.serviceName = inst.serviceName
    ∧ ((inst.stop env).1 = true → (inst.stop env).2.2 = some .stopped) := by
  have hf := Instance.isRunning_fields inst env.firstProbe
  rcases hR : inst.isRunning env.firstProbe with ⟨b, inst'⟩
  rw [hR] at hf
  dsimp only at hf
  cases b
  · constructor
    · simp [Instance.stop, hR, hf.2.1]
    · intro _
      simp [Instance.stop, hR]
  · cases hk : env.killRes
    case ok =>
      have hsA := Instance.stopAttempts_serviceName env.probes 10 0 inst'
      rcases hA : inst'.stopAttempts env.probes 0 10 with ⟨b2, inst''⟩
      rw [hA] at hsA
      dsimp only at hsA
      cases b2
      · constructor
        · simp [Instance.stop, hR, hk, hA, hsA, hf.2.1]
        · intro hcon
          simp [Instance.stop, hR, hk, hA] at hcon
      · constructor
        · simp [Instance.stop, hR, hk, hA, hsA, hf.2.1]
        · intro _
          simp [Instance.stop, hR, hk, hA]
    case esrch =>
      constructor
      · simp [Instance.stop, hR, hk, hf.2.1]
      · intro hcon
        simp [Instance.stop, hR, hk] at hcon
    case eperm =>
      constructor
      · simp [Instance.stop, hR, hk, hf.2.1]
      · intro hcon
        simp [Instance.stop, hR, hk] at hcon

theorem applyCallback_stopped_map (entries : List PoolEntry) (sname nm : String) :
    ((applyCallback entries (some .stopped) sname nm).map
        fun en => en.service.instances) =
      entries.map fun en =>
        if en.service.name = sname then en.service.instances.erase nm
        else en.service.instances := by
  induction entries with
  | nil => rfl
  | cons en rest ih =>
    by_cases h : en.service.name = sname <;>
      simp [applyCallback, Service.callback, h] <;>
      simpa [applyCallback] using ih

theorem Sys.instanceStop_effect (sys : Sys) (nm : String) (env : StopEnv)
    (inst : Instance) (hheap : sys.heap.get nm = some inst) :
    (sys.instanceStop nm env).2.instances = sys.instances
    ∧ ((sys.instanceStop nm env).1 = true →
        ((sys.instanceStop nm env).2.entries.map fun en => en.service.instances) =
          sys.entries.map fun en =>
            if en.service.name = inst.serviceName
            then en.service.instances.erase nm else en.service.instances) := by
  obtain ⟨hsn, hev⟩ := Instance.stop_shape inst env
  constructor
  · simp [Sys.instanceStop, hheap]
  · intro ht
    simp only [Sys.instanceStop, hheap] at ht ⊢
    rw [hev ht, hsn, applyCallback_stopped_map]

/-- C2 counterexample: after a successful `Pool.start` of one service with
one instance, an explicit, observed `instance.stop()` removes the instance
from the service's `live_instances` but leaves it in the pool's flat
`Pool.__instances` list (nothing ever removes entries from it), so the
flat list no longer equals the union of the services' live lists. -/
theorem C2_pool_lists_counterexample :
    (c2sys1.instanceStop "a-1" cleanStopEnv).1 = true
    ∧ c2sys2.instances = ["a-1"]
    ∧ (c2sys2.entries.map fun en => en.service.instances) = [[]]
    ∧ c2sys2.instances ≠
        ((c2sys2.entries.map fun en => en.service.instances)).join := by
  decide

/-- C2 (amended): immediately after a successful `Pool.start` from a fresh
pool the flat `Pool.__instances` list is exactly the concatenation of every
attached service's `live_instances`; but the moment a stop is observed the
equality breaks: an explicit `instance.stop()` removes the instance from
its owning service's live list only, while the pool's flat list is left
unchanged (it is never pruned). -/
theorem C2_pool_lists_amended :
    (∀ (sys : Sys) (envs : Nat → StartEnv) (stopEnvs : Nat → StopEnv),
       (∀ en ∈ sys.entries, en.service.instances = []) → sys.instances = [] →
       (sys.poolStart envs stopEnvs).1 = true →
       (sys.poolStart envs stopEnvs).2.instances =
         ((sys.poolStart envs stopEnvs).2.entries.map
           fun en => en.service.instances).join)
    ∧ (∀ (sys : Sys) (nm : String) (env : StopEnv) (inst : Instance),
       sys.heap.get nm = some inst →
       (sys.instanceStop nm env).2.instances = sys.instances
       ∧ ((sys.instanceStop nm env).1 = true →
           ((sys.instanceStop nm env).2.entries.map
             fun en => en.service.instances) =
             sys.entries.map fun en =>
               if en.service.name = inst.serviceName
               then en.service.instances.erase nm else en.service.instances)) := by
  constructor
  · intro sys envs stopEnvs hsvc hinst htrue
    simp only [Sys.poolStart] at htrue ⊢
    rcases hr1 : (poolStartEntries envs [] sys.entries sys.heap sys.instances 0).1
    · simp [hr1] at htrue
    · have hkey := poolStartEntries_join envs sys.entries [] sys.heap
        sys.instances 0 hsvc (by simp [hinst]) hr1
      simp [hr1]
      exact hkey
  · exact fun sys nm env inst hheap => Sys.instanceStop_effect sys nm env inst hheap

/-- C2 amended witness: in the concrete scenario, after `Pool.start` the
pool's flat list equals the service's live list, and the explicit stop
leaves the flat list untouched while erasing the instance from the
service's live list. -/
theorem C2_pool_lists_amended_witness :
    c2sys1.instances =
      ((c2sys1.entries.map fun en => en.service.instances)).join
    ∧ (c2sys1.instanceStop "a-1" cleanStopEnv).2.instances = c2sys1.instances
    ∧ ((c2sys1.instanceStop "a-1" cleanStopEnv).2.entries.map
        fun en => en.service.instances) = [[]] := by
  refine ⟨?_, ?_, ?_⟩
  · exact C2_pool_lists_amended.1 c2sys0 (fun _ => okStartEnv 100)
      (fun _ => cleanStopEnv) (by decide) rfl (by decide)
  · exact (C2_pool_lists_amended.2 c2sys1 "a-1" cleanStopEnv
      { seq_number := 1, serviceName := "a", name := "a-1", report_addr := none,
        pid := some 100, reported_count := 0, exit_code := none } (by decide)).1
  · have h := (C2_pool_lists_amended.2 c2sys1 "a-1" cleanStopEnv
      { seq_number := 1, serviceName := "a", name := "a-1", report_addr := none,
        pid := some 100, reported_count := 0, exit_code := none } (by decide)).2
      (by decide)
    rw [h]
    decide

/-! ### Claim C4 -/

theorem Instance.stop_pid_none_of_benign (inst : Instance) (e : StopEnv)
    (he : BenignStop e) : (inst.stop e).2.1.pid = none := by
  cases hp : inst.pid with
  | none =>
    have hrun : inst.isRunning e.firstProbe = (false, inst) := by
      simp [Instance.isRunning, hp]
    simp [Instance.stop, hrun]
  | some p =>
    rcases he with h1 | ⟨h1, h2, h3⟩
    · have hrun : inst.isRunning e.firstProbe
          = (false, { inst with exit_code := some 0 }) := by
        simp [Instance.isRunning, hp, h1]
      simp [Instance.stop, hrun]
    · have hrun : inst.isRunning e.firstProbe = (true, inst) := by
        simp [Instance.isRunning, hp, h1]
      have hpoll : inst.isRunning (e.probes 0)
          = (false, { inst with exit_code := some 0 }) := by
        simp [Instance.isRunning, hp, h3]
      simp [Instance.stop, hrun, h2, Instance.stopAttempts, hpoll]

theorem stopInstances_pid_none (stopEnvs : Nat → StopEnv)
    (hbenign : ∀ k, BenignStop (stopEnvs k)) :
    ∀ (names : List String) (heap : Heap) (entries : List PoolEntry) (i : Nat),
      (∀ nm inst, heap.get nm = some inst → nm ∈ names ∨ inst.pid = none) →
      ∀ nm inst,
        (stopInstances stopEnvs heap entries names i).1.get nm = some inst →
        inst.pid = none := by
  intro names
  induction names with
  | nil =>
    intro heap entries i hpre nm inst hget
    rcases hpre nm inst hget with h | h
    · simp at h
    · exact h
  | cons hd rest ih =>
    intro heap entries i hpre nm inst hget
    cases hg : heap.get hd with
    | none =>
      simp only [stopInstances, hg] at hget
      refine ih _ _ _ ?_ nm inst hget
      intro nm' inst' hget'
      rcases hpre nm' inst' hget' with hmem | hpid
      · rcases List.mem_cons.mp hmem with rfl | hmem'
        · rw [hg] at hget'
          exact absurd hget' (by simp)
        · exact Or.inl hmem'
      · exact Or.inr hpid
    | some inst0 =>
      simp only [stopInstances, hg] at hget
      refine ih _ _ _ ?_ nm inst hget
      intro nm' inst' hget'
      by_cases hnm : nm' = hd
      · subst hnm
        rw [Heap.get_set_self] at hget'
        injection hget' with h'
        right
        rw [← h']
        exact Instance.stop_pid_none_of_benign inst0 (stopEnvs i) (hbenign i)
      · rw [Heap.get_set_ne _ _ _ _ hnm] at hget'
        rcases hpre nm' inst' hget' with hmem | hpid
        · rcases List.mem_cons.mp hmem with rfl | hmem'
          · exact absurd rfl hnm
          · exact Or.inl hmem'
        · exact Or.inr hpid

theorem serviceSpawn_dom (envs : Nat → StartEnv) :
    ∀ (m : Nat) (svc : Service) (h : Heap) (acc : List String) (k : Nat),
      (∀ nm inst, h.get nm = some inst → nm ∈ acc) →
      ∀ nm inst,
        (serviceSpawn envs svc h acc k m).2.2.1.get nm = some inst →
        nm ∈ (serviceSpawn envs svc h acc k m).2.2.2.1 := by
  intro m
  induction m with
  | zero =>
    intro svc h acc k hpre nm inst hget
    exact hpre nm inst hget
  | succ m ih =>
    intro svc h acc k hpre nm inst hget
    have hshape := Service.start_shape svc h (envs k)
    rcases hs : svc.start h (envs k) with ⟨onm, svc', h'⟩
    rw [hs] at hshape
    dsimp only at hshape
    rcases hshape with ⟨h1, -, h3⟩ | ⟨nm0, v, h1, -, h3⟩
    · subst h1
      simp only [serviceSpawn, hs] at hget ⊢
      rw [h3] at hget
      exact hpre nm inst hget
    · subst h1
      simp only [serviceSpawn, hs] at hget ⊢
      refine ih svc' h' (acc ++ [nm0]) (k + 1) ?_ nm inst hget
      intro nm' inst' hget'
      rw [h3] at hget'
      by_cases hnm : nm' = nm0
      · subst hnm
        exact List.mem_append_right _ (List.mem_singleton.mpr rfl)
      · rw [Heap.get_set_ne _ _ _ _ hnm] at hget'
        exact List.mem_append_left _ (hpre nm' inst' hget')

theorem poolStartEntries_dom (envs : Nat → StartEnv) :
    ∀ (rest done : List PoolEntry) (h : Heap) (acc : List String) (k : Nat),
      (∀ nm inst, h.get nm = some inst → nm ∈ acc) →
      ∀ nm inst,
        (poolStartEntries envs done rest h acc k).2.2.1.get nm = some inst →
        nm ∈ (poolStartEntries envs done rest h acc k).2.2.2.1 := by
  intro rest
  induction rest with
  | nil =>
    intro done h acc k hpre nm inst hget
    exact hpre nm inst hget
  | cons en rest ih =>
    intro done h acc k hpre nm inst hget
    have hdom := serviceSpawn_dom envs en.multiply en.service h acc k hpre
    rcases hsp : serviceSpawn envs en.service h acc k en.multiply with
      ⟨b, svc', h', acc', k'⟩
    rw [hsp] at hdom
    dsimp only at hdom
    cases b
    · simp only [poolStartEntries, hsp] at hget ⊢
      exact hdom nm inst hget
    · simp only [poolStartEntries, hsp] at hget ⊢
      exact ih _ _ _ _ hdom nm inst hget

/-- C4: `Pool.start` is all-or-nothing.  From a fresh pool (empty heap, no
tracked instances) and with stop environments under which instance stops
succeed: whenever `Pool.start` returns false — which is what any single
instance-start failure produces — it has marked the pool stopped and every
instance object in the heap (in particular every instance started so far)
has its pid cleared by the rollback `Pool.stop`; and when it returns true
the pool is left running (no rollback happened). -/
theorem C4_pool_start_rollback (sys : Sys) (envs : Nat → StartEnv)
    (stopEnvs : Nat → StopEnv) (hheap0 : sys.heap = [])
    (hbenign : ∀ k, BenignStop (stopEnvs k)) :
    ((sys.poolStart envs stopEnvs).1 = false →
      (sys.poolStart envs stopEnvs).2.stopped = true
      ∧ ∀ nm inst, (sys.poolStart envs stopEnvs).2.heap.get nm = some inst →
          inst.pid = none)
    ∧ ((sys.poolStart envs stopEnvs).1 = true →
       (sys.poolStart envs stopEnvs).2.stopped = false) := by
  have hpre0 : ∀ nm inst, sys.heap.get nm = some inst → nm ∈ sys.instances := by
    rw [hheap0]
    intro nm inst h
    simp [Heap.get] at h
  have hdom := poolStartEntries_dom envs sys.entries [] sys.heap sys.instances
    0 hpre0
  rcases hr : poolStartEntries envs [] sys.entries sys.heap sys.instances 0 with
    ⟨b, en, h, acc, k⟩
  rw [hr] at hdom
  dsimp only at hdom
  cases b
  · constructor
    · intro _
      constructor
      · simp [Sys.poolStart, hr, Sys.poolStop, stopInstances]
      · intro nm inst hget
        simp only [Sys.poolStart, hr] at hget
        refine stopInstances_pid_none stopEnvs hbenign acc h en 0 ?_ nm inst ?_
        · intro nm' inst' hg'
          exact Or.inl (hdom nm' inst' hg')
        · exact hget
    · intro hcon
      simp [Sys.poolStart, hr] at hcon
  · constructor
    · intro hcon
      simp [Sys.poolStart, hr] at hcon
    · intro _
      simp [Sys.poolStart, hr]

/-- C4 witness: a pool of one service wanting two instances whose second
fork fails rolls back: `Pool.start` returns false, the pool is stopped, and
the already-started instance `f-1` has its pid cleared. -/
theorem C4_pool_start_rollback_witness :
    (c4sys0.poolStart c10envs (fun _ => cleanStopEnv)).1 = false
    ∧ (c4sys0.poolStart c10envs (fun _ => cleanStopEnv)).2.stopped = true
    ∧ (c4sys0.poolStart c10envs (fun _ => cleanStopEnv)).2.heap.get "f-1"
        = some { seq_number := 1, serviceName := "f", name := "f-1",
                 report_addr := none, pid := none, reported_count := 0,
                 exit_code := some 0 }
    ∧ Instance.pid { seq_number := 1, serviceName := "f", name := "f-1",
                     report_addr := none, pid := none, reported_count := 0,
                     exit_code := some 0 } = none := by
  have hthm := C4_pool_start_rollback c4sys0 c10envs (fun _ => cleanStopEnv)
    rfl (fun _ => Or.inr ⟨rfl, rfl, rfl⟩)
  refine ⟨by decide, (hthm.1 (by decide)).1, by decide, ?_⟩
  exact (hthm.1 (by decide)).2 "f-1" _ (by decide)

/-! ### Claim C9 -/

theorem objGet_objSet_self (fields : List (String × Jval)) (k : String) (v : Jval) :
    objGet (objSet fields k v) k = some v := by
  induction fields with
  | nil => simp [objSet, objGet]
  | cons kv rest ih =>
    obtain ⟨k0, v0⟩ := kv
    by_cases hk : k0 = k
    · simp [objSet, hk, objGet]
    · simp [objSet, hk, objGet, ih]

theorem objGet_objSet_ne (fields : List (String × Jval)) (k k' : String) (v : Jval)
    (hne : k' ≠ k) : objGet (objSet fields k v) k' = objGet fields k' := by
  induction fields with
  | nil => simp [objSet, objGet, Ne.symm hne]
  | cons kv rest ih =>
    obtain ⟨k0, v0⟩ := kv
    by_cases hk : k0 = k
    · subst hk
      simp [objSet, objGet, Ne.symm hne]
    · by_cases hk' : k0 = k'
      · subst hk'
        simp [objSet, hk, objGet]
      · simp [objSet, hk, objGet, hk', ih]

theorem collectLoop_objGet_not_mem (env : CollectEnv) :
    ∀ (names : List String) (heap : Heap) (i : Nat)
      (acc : List (String × Jval)) (nm : String),
      nm ∉ names →
      objGet (collectLoop env heap names i acc).2 nm = objGet acc nm := by
  intro names
  induction names with
  | nil => intro heap i acc nm _; rfl
  | cons hd rest ih =>
    intro heap i acc nm hnm
    have hne : nm ≠ hd := fun h => hnm (h ▸ List.mem_cons_self hd rest)
    have hrest : nm ∉ rest := fun h => hnm (List.mem_cons_of_mem hd h)
    cases hg : heap.get hd with
    | none =>
      simp only [collectLoop, hg]
      exact ih _ _ _ _ hrest
    | some inst =>
      by_cases hok : (inst.report (env.reportEnvs i)).1 = true
      · cases hrec : env.received i with
        | none =>
          simp only [collectLoop, hg, hok, hrec, if_true]
          exact ih _ _ _ _ hrest
        | some payload =>
          simp only [collectLoop, hg, hok, hrec, if_true]
          rw [ih _ _ _ _ hrest, objGet_objSet_ne _ _ _ _ hne]
      · simp only [collectLoop, hg, hok]
        simp only [Bool.not_eq_true] at hok
        simp only [hok, Bool.false_eq_true, if_false]
        exact ih _ _ _ _ hrest

theorem collectLoop_objGet_at (env : CollectEnv) :
    ∀ (names : List String) (j : Nat) (heap : Heap) (i : Nat)
      (acc : List (String × Jval)) (nm : String) (inst : Instance)
      (payload : Jval),
      names.Nodup → names.get? j = some nm → heap.get nm = some inst →
      (inst.report (env.reportEnvs (i + j))).1 = true →
      env.received (i + j) = some payload →
      objGet (collectLoop env heap names i acc).2 nm = some payload := by
  intro names
  induction names with
  | nil =>
    intro j heap i acc nm inst payload _ hj _ _ _
    simp [List.get?] at hj
  | cons hd rest ih =>
    intro j heap i acc nm inst payload hnodup hj hh hok hrecv
    cases j with
    | zero =>
      simp only [List.get?_cons_zero, Option.some.injEq] at hj
      subst hj
      rw [Nat.add_zero] at hok hrecv
      have hrest : hd ∉ rest := (List.nodup_cons.mp hnodup).1
      simp only [collectLoop, hh, hok, hrecv, if_true]
      rw [collectLoop_objGet_not_mem env rest _ _ _ _ hrest, objGet_objSet_self]
    | succ j' =>
      simp only [List.get?_cons_succ] at hj
      have hmem : nm ∈ rest := List.get?_mem hj
      have hne : nm ≠ hd := by
        rintro rfl
        exact (List.nodup_cons.mp hnodup).1 hmem
      have harith : i + 1 + j' = i + (j' + 1) := by omega
      have hnodup' := (List.nodup_cons.mp hnodup).2
      cases hg : heap.get hd with
      | none =>
        simp only [collectLoop, hg]
        refine ih j' heap (i + 1) acc nm inst payload hnodup' hj hh ?_ ?_
        · rw [harith]; exact hok
        · rw [harith]; exact hrecv
      | some ihd =>
        have hh' : ∀ x : Instance, (heap.set hd x).get nm = some inst := by
          intro x
          rw [Heap.get_set_ne _ _ _ _ hne]
          exact hh
        by_cases hok0 : (ihd.report (env.reportEnvs i)).1 = true
        · cases hrec0 : env.received i with
          | none =>
            simp only [collectLoop, hg, hok0, hrec0, if_true]
            refine ih j' _ (i + 1) acc nm inst payload hnodup' hj (hh' _) ?_ ?_
            · rw [harith]; exact hok
            · rw [harith]; exact hrecv
          | some p0 =>
            simp only [collectLoop, hg, hok0, hrec0, if_true]
            refine ih j' _ (i + 1) _ nm inst payload hnodup' hj (hh' _) ?_ ?_
            · rw [harith]; exact hok
            · rw [harith]; exact hrecv
        · simp only [collectLoop, hg, hok0]
          simp only [Bool.not_eq_true] at hok0
          simp only [hok0, Bool.false_eq_true, if_false]
          refine ih j' _ (i + 1) acc nm inst payload hnodup' hj (hh' _) ?_ ?_
          · rw [harith]; exact hok
          · rw [harith]; exact hrecv

/-- C9: round-trip of worker reports.  For a tracked instance whose report
request succeeds and whose pushed payload — the document built by
`Context.__send_report` around the handler's report value — is the one read
back, `Pool.collect_reports` files that exact payload under
`instances.<name>` of the aggregate report, and the handler's value sits
unchanged under its `report` field. -/
theorem C9_report_roundtrip (sys : Sys) (cenv : CollectEnv) (j : Nat)
    (nm : String) (inst : Instance) (ctx : Ctx) (rep : Jval) (payload : Jval)
    (startedAt : String) (online : Int)
    (hnodup : sys.instances.Nodup) (hj : sys.instances.get? j = some nm)
    (hheap : sys.heap.get nm = some inst)
    (hok : (inst.report (cenv.reportEnvs j)).1 = true)
    (hsent : Context.sendReport ctx rep = some payload)
    (hrecv : cenv.received j = some payload) :
    ((sys.collectReports cenv startedAt online).2.getField "instances")
        = some (.jobj (collectLoop cenv sys.heap sys.instances 0 []).2)
    ∧ objGet (collectLoop cenv sys.heap sys.instances 0 []).2 nm = some payload
    ∧ payload.getField "report" = some rep := by
  refine ⟨?_, ?_, ?_⟩
  · simp [Sys.collectReports, Jval.getField, objGet]
  · exact collectLoop_objGet_at cenv sys.instances j sys.heap 0 [] nm inst
      payload hnodup hj hheap (by rw [Nat.zero_add]; exact hok)
      (by rw [Nat.zero_add]; exact hrecv)
  · rcases ha : ctx.report_addr with - | a
    · simp [Context.sendReport, ha] at hsent
    · simp only [Context.sendReport, ha] at hsent
      injection hsent with hsent
      subst hsent
      simp [workerMsg, Jval.getField, objGet]

/-- C9 witness: in the concrete two-instance pool, the payload worker `g-1`
pushes (the handler report `{"status": 100}` wrapped by
`Context.__send_report`) comes back under `instances.g-1` of the aggregate,
with the handler value unchanged under `report`. -/
theorem C9_report_roundtrip_witness :
    ((c9sys.collectReports c9env "01.01.2026 00:00:05 UTC" 5).2.getField
        "instances")
      = some (.jobj (collectLoop c9env c9sys.heap c9sys.instances 0 []).2)
    ∧ objGet (collectLoop c9env c9sys.heap c9sys.instances 0 []).2 "g-1"
      = some (workerMsg c9ctx c9rep)
    ∧ (workerMsg c9ctx c9rep).getField "report" = some c9rep := by
  exact C9_report_roundtrip c9sys c9env 0 "g-1"
    { seq_number := 1, serviceName := "g", name := "g-1",
      report_addr := some ("127.0.0.1", 2001), pid := some 400,
      reported_count := 0, exit_code := none }
    c9ctx c9rep (workerMsg c9ctx c9rep) "01.01.2026 00:00:05 UTC" 5
    (by decide) rfl rfl (by decide) rfl rfl

end Gentoolkit
